import Mathlib

/-!
# Verification of the canny-cli pagination and decoding core

This file is a shallow embedding, in Lean 4, of the parts of the `canny-cli`
Rust sources that the specification's testable properties talk about:

* the JSON value model and the serde-style decoders for the record types in
  `src/models.rs` that those endpoints decode into;
* the response decoding of `CannyClient::get_post`, `CannyClient::get_user`,
  `CannyClient::fetch_users_page` and `CannyClient::list_companies`
  (`src/api.rs`), split at the external-collaborator boundary: the textual
  JSON parse performed by `serde_json::from_str` is represented by an
  `Option Json` argument (the parse result), while everything the repository
  itself does with the parsed value is modelled concretely;
* the request-body builder of `CannyClient::list_posts` (`src/api.rs`);
* the credential resolvers `resolve_api_key` / `resolve_api_url`
  (`src/credentials.rs`), with the OS secret store modelled as an
  `Option String` input at its get-interface boundary;
* the cursor depagination loop of `CannyClient::list_users` (`src/api.rs`),
  including the empty-page check, the `hasNextPage`/cursor termination
  signal and the 100000-record safety ceiling.  The loop carries two ghost
  accumulators that record, without influencing control flow, the values
  passed to the progress callback and the cursors passed to
  `fetch_users_page`, so that claims about progress reporting and about the
  number of fetches become statements about the result.

JSON numbers are modelled as integers: no claim in scope depends on
floating-point behaviour.
-/

/-- Model of `serde_json::Value`.  Objects are association lists; the Rust
map has unique keys, and all lookups below use the first binding, which
agrees with the map semantics on unique-key objects. -/
inductive Json where
  | null : Json
  | bool (b : Bool) : Json
  | num (n : Int) : Json
  | str (s : String) : Json
  | arr (elems : List Json) : Json
  | obj (fields : List (String × Json)) : Json

/-- `serde_json::Map::get` on an object's field list. -/
def lookupField : List (String × Json) → String → Option Json
  | [], _ => none
  | (k, v) :: rest, key => if k = key then some v else lookupField rest key

/-- `Value::as_object`. -/
def Json.asObj : Json → Option (List (String × Json))
  | .obj f => some f
  | _ => none

/-- `Value::as_bool`. -/
def Json.asBool : Json → Option Bool
  | .bool b => some b
  | _ => none

/-- `Value::as_str`. -/
def Json.asStr : Json → Option String
  | .str s => some s
  | _ => none

/-- `body[key] = value` on a `serde_json` object: replace the binding if the
key is present, otherwise insert it. -/
def setField : List (String × Json) → String → Json → List (String × Json)
  | [], k, v => [(k, v)]
  | (k', v') :: rest, k, v =>
      if k' = k then (k, v) :: rest else (k', v') :: setField rest k v

/-- The key list of a JSON object. -/
def keys (fields : List (String × Json)) : List String :=
  fields.map (fun f => f.1)

/-! ## Record types from `src/models.rs` (the ones the claims decode into) -/

/-- `CannyUser` (models.rs): author records nested in posts. -/
structure CannyUser where
  id : String
  name : String
  email : Option String
  avatar_url : Option String
deriving DecidableEq

/-- `CannyCategory` (models.rs). -/
structure CannyCategory where
  id : String
  name : String
  post_count : Option Int
  url : Option String
deriving DecidableEq

/-- `CannyPost` (models.rs). -/
structure CannyPost where
  id : String
  title : String
  details : Option String
  url : String
  status : Option String
  comment_count : Int
  score : Int
  created : Option String
  author : Option CannyUser
  category : Option CannyCategory
deriving DecidableEq

/-- `CannyUserFull` (models.rs): full user details from users/retrieve and
users/list. -/
structure CannyUserFull where
  id : String
  name : Option String
  email : Option String
  avatar_url : Option String
  created : Option String
  is_admin : Option Bool
  last_activity : Option String
  user_id : Option String
  url : Option String
deriving DecidableEq

/-- `CannyCompany` (models.rs).  `monthly_spend` is `f64` in Rust; numbers
are modelled as integers here (no claim depends on float width). -/
structure CannyCompany where
  id : String
  name : Option String
  created : Option String
  monthly_spend : Option Int
  user_count : Option Int
  custom_fields : Option Json

/-- `CompaniesListResponse` (models.rs), as assembled by `list_companies`. -/
structure CompaniesListResponse where
  has_next_page : Option Bool
  cursor : Option String
  companies : List CannyCompany

/-! ## serde-derive field decoding

The decoders below reproduce serde's derive semantics for the structs above:
a `String` field must be present and a JSON string; an `Option` field
(`#[serde(default)]` or serde's implicit optionality) decodes a missing or
`null` value to `none` and fails on a present value of the wrong type; an
`i32` field with `#[serde(default)]` decodes a missing value to `0`.
Unknown keys are ignored (serde's default). -/

/-- Required `String` field. -/
def reqStr (f : List (String × Json)) (key : String) : Option String :=
  match lookupField f key with
  | some (Json.str s) => some s
  | _ => none

/-- Optional `Option<String>` field. -/
def decOptStr (f : List (String × Json)) (key : String) : Option (Option String) :=
  match lookupField f key with
  | none => some none
  | some Json.null => some none
  | some (Json.str s) => some (some s)
  | some _ => none

/-- Optional `Option<bool>` field. -/
def decOptBool (f : List (String × Json)) (key : String) : Option (Option Bool) :=
  match lookupField f key with
  | none => some none
  | some Json.null => some none
  | some (Json.bool b) => some (some b)
  | some _ => none

/-- Optional `Option<i32>` / `Option<f64>` numeric field. -/
def decOptNum (f : List (String × Json)) (key : String) : Option (Option Int) :=
  match lookupField f key with
  | none => some none
  | some Json.null => some none
  | some (Json.num n) => some (some n)
  | some _ => none

/-- `#[serde(default)] i32` field: missing decodes to `0`. -/
def decDefInt (f : List (String × Json)) (key : String) : Option Int :=
  match lookupField f key with
  | none => some 0
  | some (Json.num n) => some n
  | some _ => none

/-- Optional `Option<serde_json::Value>` field: `null` decodes to `none`
(serde's `Option` handling), any other present value is kept verbatim. -/
def decOptJson (f : List (String × Json)) (key : String) : Option (Option Json) :=
  match lookupField f key with
  | none => some none
  | some Json.null => some none
  | some v => some (some v)

/-- serde decode of `CannyUser`. -/
def decodeCannyUser (j : Json) : Option CannyUser := do
  let f ← j.asObj
  let id ← reqStr f "id"
  let name ← reqStr f "name"
  let email ← decOptStr f "email"
  let avatar_url ← decOptStr f "avatarUrl"
  pure ⟨id, name, email, avatar_url⟩

/-- serde decode of `CannyCategory`. -/
def decodeCannyCategory (j : Json) : Option CannyCategory := do
  let f ← j.asObj
  let id ← reqStr f "id"
  let name ← reqStr f "name"
  let post_count ← decOptNum f "postCount"
  let url ← decOptStr f "url"
  pure ⟨id, name, post_count, url⟩

/-- Optional nested `Option<CannyUser>` field. -/
def decOptUser (f : List (String × Json)) (key : String) : Option (Option CannyUser) :=
  match lookupField f key with
  | none => some none
  | some Json.null => some none
  | some v => (decodeCannyUser v).map some

/-- Optional nested `Option<CannyCategory>` field. -/
def decOptCategory (f : List (String × Json)) (key : String) :
    Option (Option CannyCategory) :=
  match lookupField f key with
  | none => some none
  | some Json.null => some none
  | some v => (decodeCannyCategory v).map some

/-- serde decode of `CannyPost`. -/
def decodeCannyPost (j : Json) : Option CannyPost := do
  let f ← j.asObj
  let id ← reqStr f "id"
  let title ← reqStr f "title"
  let details ← decOptStr f "details"
  let url ← reqStr f "url"
  let status ← decOptStr f "status"
  let comment_count ← decDefInt f "commentCount"
  let score ← decDefInt f "score"
  let created ← decOptStr f "created"
  let author ← decOptUser f "author"
  let category ← decOptCategory f "category"
  pure ⟨id, title, details, url, status, comment_count, score, created, author, category⟩

/-- serde decode of `CannyUserFull`. -/
def decodeUserFull (j : Json) : Option CannyUserFull := do
  let f ← j.asObj
  let id ← reqStr f "id"
  let name ← decOptStr f "name"
  let email ← decOptStr f "email"
  let avatar_url ← decOptStr f "avatarUrl"
  let created ← decOptStr f "created"
  let is_admin ← decOptBool f "isAdmin"
  let last_activity ← decOptStr f "lastActivity"
  let user_id ← decOptStr f "userID"
  let url ← decOptStr f "url"
  pure ⟨id, name, email, avatar_url, created, is_admin, last_activity, user_id, url⟩

/-- serde decode of `CannyCompany`. -/
def decodeCompany (j : Json) : Option CannyCompany := do
  let f ← j.asObj
  let id ← reqStr f "id"
  let name ← decOptStr f "name"
  let created ← decOptStr f "created"
  let monthly_spend ← decOptNum f "monthlySpend"
  let user_count ← decOptNum f "userCount"
  let custom_fields ← decOptJson f "customFields"
  pure ⟨id, name, created, monthly_spend, user_count, custom_fields⟩

/-- serde decode of `Vec<CannyUserFull>`. -/
def decodeUsersArr (j : Json) : Option (List CannyUserFull) :=
  match j with
  | .arr l => l.mapM decodeUserFull
  | _ => none

/-- serde decode of `Vec<CannyCompany>`. -/
def decodeCompaniesArr (j : Json) : Option (List CannyCompany) :=
  match j with
  | .arr l => l.mapM decodeCompany
  | _ => none

/-- serde decode of `PostRetrieveResponse` (models.rs): a struct whose only
field is `post: Option<CannyPost>`; serde decodes a missing or `null`
`post` key to `None`. -/
def decodePostRetrieve (j : Json) : Option (Option CannyPost) := do
  let f ← j.asObj
  decOptPost f
where
  /-- the `post: Option<CannyPost>` field -/
  decOptPost (f : List (String × Json)) : Option (Option CannyPost) :=
    match lookupField f "post" with
    | none => some none
    | some Json.null => some none
    | some v => (decodeCannyPost v).map some

/-! ## Error taxonomy and the response-decoder boundary

The Rust code reports all failures through `anyhow`; the two failure kinds
the spec distinguishes are told apart by how they are raised:
`anyhow::bail!("API error ({status}): {text}")` for a non-2xx status
(`ApiError`, carrying the status and the verbatim body text) and
`.context("Failed to parse ...")` around a `serde_json` failure
(`DecodeError`).  The inductive below renders that taxonomy. -/
inductive CannyError where
  | apiError (status : Nat) (body : String) : CannyError
  | decodeError (cause : String) : CannyError
deriving DecidableEq

/-- `reqwest::StatusCode::is_success`: the 2xx range. -/
def isSuccess (status : Nat) : Bool :=
  200 ≤ status && status ≤ 299

/-- Response handling of `CannyClient::get_post` (api.rs): given the HTTP
status, the raw body text and the result of the external
`serde_json::from_str` textual parse, produce the typed outcome.  A non-2xx
status fails with the status and the verbatim body; a parse or shape
failure fails with the `"Failed to parse response"` decode context; a valid
`PostRetrieveResponse` yields its `post` field. -/
def get_post_decode (status : Nat) (text : String) (parsed : Option Json) :
    Except CannyError (Option CannyPost) :=
  if !isSuccess status then .error (.apiError status text)
  else
    match parsed with
    | none => .error (.decodeError "Failed to parse response")
    | some v =>
      match decodePostRetrieve v with
      | none => .error (.decodeError "Failed to parse response")
      | some post => .ok post

/-- Response handling of `CannyClient::get_user` (api.rs): after the status
check, the body is decoded with `serde_json::from_str::<CannyUserFull>(..).ok()`,
so any parse or shape failure becomes `Ok(None)` instead of an error. -/
def get_user_decode (status : Nat) (text : String) (parsed : Option Json) :
    Except CannyError (Option CannyUserFull) :=
  if !isSuccess status then .error (.apiError status text)
  else .ok (parsed.bind decodeUserFull)

/-- The `hasNextPage` read of `fetch_users_page` (api.rs):
`obj.get("hasNextPage").and_then(as_bool).unwrap_or(false)`. -/
def readHasNext (obj : List (String × Json)) : Bool :=
  ((lookupField obj "hasNextPage").bind Json.asBool).getD false

/-- The `cursor` read of `fetch_users_page` and `list_companies` (api.rs):
`obj.get("cursor").and_then(as_str).map(to_string)`. -/
def readCursor (obj : List (String × Json)) : Option String :=
  (lookupField obj "cursor").bind Json.asStr

/-- The payload-array extraction shared by the two v2 list endpoints
(api.rs): `obj.get(primary).or_else(macro_omitted get(legacy)).cloned().unwrap_or(json_empty_array)`. -/
def extractPayload (obj : List (String × Json)) (primary legacy : String) : Json :=
  ((lookupField obj primary).orElse (fun _ => lookupField obj legacy)).getD (Json.arr [])

/-- Response handling of `CannyClient::fetch_users_page` (api.rs): status
check, textual parse, object check, payload extraction (`"items"` first,
else `"users"`, else an empty array), element decoding, then the
`hasNextPage` and `cursor` reads.  Returns the Rust method's
`(users, next_cursor, has_next)` triple. -/
def fetch_users_page_decode (status : Nat) (text : String) (parsed : Option Json) :
    Except CannyError (List CannyUserFull × Option String × Bool) :=
  if !isSuccess status then .error (.apiError status text)
  else
    match parsed with
    | none => .error (.decodeError "Failed to parse response as JSON")
    | some value =>
      match value.asObj with
      | none => .error (.decodeError "Expected object response")
      | some obj =>
        match decodeUsersArr (extractPayload obj "items" "users") with
        | none => .error (.decodeError "Failed to parse users from response")
        | some users => .ok (users, readCursor obj, readHasNext obj)

/-- Response handling of `CannyClient::list_companies` (api.rs): same staged
decode as `fetch_users_page` with the `"companies"` legacy key, except that
`hasNextPage` is kept as `Option<bool>` without a `false` default. -/
def list_companies_decode (status : Nat) (text : String) (parsed : Option Json) :
    Except CannyError CompaniesListResponse :=
  if !isSuccess status then .error (.apiError status text)
  else
    match parsed with
    | none => .error (.decodeError "Failed to parse response as JSON")
    | some value =>
      match value.asObj with
      | none => .error (.decodeError "Expected object response")
      | some obj =>
        match decodeCompaniesArr (extractPayload obj "items" "companies") with
        | none => .error (.decodeError "Failed to parse companies from response")
        | some companies =>
          .ok ⟨(lookupField obj "hasNextPage").bind Json.asBool, readCursor obj, companies⟩

/-! ## Request builder of `CannyClient::list_posts` -/

/-- One `if let Some(x) = arg \x7b body[key] = json!(x) \x7d` block of a
request builder: insert the field only when the optional value is
present. -/
def setOptField {β : Type} (body : List (String × Json)) (key : String)
    (o : Option β) (f : β → Json) : List (String × Json) :=
  match o with
  | some x => setField body key (f x)
  | none => body

/-- The request body built by `CannyClient::list_posts` (api.rs): the
`json!` skeleton holds the mandatory `apiKey` and `boardID` fields, then
each optional argument is inserted by `body[key] = json!(value)` only when
it is `Some`. -/
def list_posts_body (apiKey boardId : String) (limit skip : Option Nat)
    (sort status authorId search companyId : Option String)
    (tagIds : Option (List String)) : List (String × Json) :=
  let body := [("apiKey", Json.str apiKey), ("boardID", Json.str boardId)]
  let body := setOptField body "limit" limit (fun l => Json.num l)
  let body := setOptField body "skip" skip (fun s => Json.num s)
  let body := setOptField body "sort" sort Json.str
  let body := setOptField body "status" status Json.str
  let body := setOptField body "authorID" authorId Json.str
  let body := setOptField body "search" search Json.str
  let body := setOptField body "companyID" companyId Json.str
  let body := setOptField body "tagIDs" tagIds (fun tags => Json.arr (tags.map Json.str))
  body

/-! ## Credential resolvers (`src/credentials.rs`)

The macOS Keychain is the external secret store; its `get` results for the
api-key and api-url accounts enter as `Option String` arguments. -/

/-- `DEFAULT_API_URL` (api.rs). -/
def DEFAULT_API_URL : String := "https://canny.io/api/v1"

/-- `resolve_api_key` (credentials.rs): an explicit key (flag or
environment) wins; else the stored Keychain key; else an error. -/
def resolve_api_key (storedKey : Option String) (explicitKey : Option String) :
    Except String String :=
  match explicitKey with
  | some key => .ok key
  | none =>
    match storedKey with
    | some k => .ok k
    | none => .error "API key not found. Run `canny auth` to configure, or provide --api-key / set CANNY_API_KEY."

/-- `resolve_api_url` (credentials.rs): an explicit URL is returned only
when it differs from the default; otherwise the stored Keychain URL if any;
otherwise `none` (the caller then uses its default). -/
def resolve_api_url (storedUrl : Option String) (explicitUrl : Option String)
    (defaultUrl : String) : Option String :=
  match explicitUrl with
  | some url => if url ≠ defaultUrl then some url else storedUrl
  | none => storedUrl

/-! ## The depagination engine of `CannyClient::list_users`

`list_users` drives `fetch_users_page` to exhaustion.  The page fetch is
injected as `fetch cursor limit`, returning the `(users, next_cursor,
has_next)` triple or an error, exactly the shape of `fetch_users_page`.
Beyond the Rust accumulator, the loop carries two ghost traces that record
observable events without influencing control flow: `reports`, the values
handed to the optional progress callback (`progress(all_users.len())` runs
once per non-empty page), and `calls`, the cursors passed to `fetch`.  The
loop terminates because an iteration only continues after appending a
non-empty page while the accumulator holds at most 100000 records. -/
def listUsersLoop {α : Type}
    (fetch : Option String → Nat → Except CannyError (List α × Option String × Bool))
    (limit : Nat) (cursor : Option String) (allUsers : List α)
    (reports : List Nat) (calls : List (Option String)) :
    Except CannyError (List α × List Nat × List (Option String)) :=
  match fetch cursor limit with
  | .error e => .error e
  | .ok (users, nextCursor, hasNext) =>
    if users.isEmpty then .ok (allUsers, reports, calls ++ [cursor])
    else
      let allUsers' := allUsers ++ users
      let reports' := reports ++ [allUsers'.length]
      if !hasNext || nextCursor.isNone then
        .ok (allUsers', reports', calls ++ [cursor])
      else if allUsers'.length > 100000 then
        .ok (allUsers', reports', calls ++ [cursor])
      else
        listUsersLoop fetch limit nextCursor allUsers' reports' (calls ++ [cursor])
termination_by 100001 - allUsers.length
decreasing_by
  simp_wf
  rename_i hne _ hceil
  have hu : users ≠ [] := by
    intro h
    rw [h] at hne
    simp at hne
  have hpos : 0 < users.length := List.length_pos.mpr hu
  have hA : allUsers'.length = allUsers.length + users.length := by
    show (allUsers ++ users).length = _
    simp [List.length_append]
  omega

/-- `CannyClient::list_users` (api.rs): run the cursor loop from an empty
accumulator and a `None` cursor with the fixed page size 100. -/
def list_users {α : Type}
    (fetch : Option String → Nat → Except CannyError (List α × Option String × Bool)) :
    Except CannyError (List α × List Nat × List (Option String)) :=
  listUsersLoop fetch 100 none [] [] []

/-! ## Synthetic servers and trace characterisations -/

/-- An opaque unary cursor token issued by the synthetic server: `i`
repetitions of one character. -/
def unaryCursor (i : Nat) : String := String.mk (List.replicate i 'a')

/-- The page index a synthetic-server cursor stands for: the first page for
`none`, the token's length otherwise. -/
def cursorIndex : Option String → Nat
  | none => 0
  | some s => s.data.length

/-- A synthetic cursor-paginated server: pages `0 .. N-1` are the full pages
`fullPages i`, answered with `hasNextPage = true` and the cursor for the
next page; every later request is answered with the final page,
`hasNextPage = false` and no cursor.  The requested limit is ignored (the
page contents are the server's choice). -/
def synthFetch {α : Type} (fullPages : Nat → List α) (N : Nat) (finalPage : List α) :
    Option String → Nat → Except CannyError (List α × Option String × Bool) :=
  fun c _ =>
    if cursorIndex c < N then
      .ok (fullPages (cursorIndex c), some (unaryCursor (cursorIndex c + 1)), true)
    else
      .ok (finalPage, none, false)

/-- Whether the server answers a cursor with a non-empty page. -/
def nonEmptyCall {α : Type}
    (fetch : Option String → Nat → Except CannyError (List α × Option String × Bool))
    (limit : Nat) (c : Option String) : Bool :=
  match fetch c limit with
  | .ok (us, _, _) => !us.isEmpty
  | .error _ => false

/-- The non-empty pages the server returns for a given list of fetched
cursors, in fetch order. -/
def pagesOf {α : Type}
    (fetch : Option String → Nat → Except CannyError (List α × Option String × Bool))
    (limit : Nat) (calls : List (Option String)) : List (List α) :=
  calls.filterMap (fun c =>
    match fetch c limit with
    | .ok (us, _, _) => if us.isEmpty then none else some us
    | .error _ => none)

/-- Running totals of page lengths, starting from `n`: the value reported to
the progress callback after each page. -/
def cumLengths {α : Type} : List (List α) → Nat → List Nat
  | [], _ => []
  | p :: ps, n => (n + p.length) :: cumLengths ps (n + p.length)

/-! ### One-step equations for the loop -/

/-- A failing page fetch propagates immediately. -/
theorem loop_error {α : Type} {fetch} {limit : Nat} {cursor : Option String}
    {acc : List α} {reports calls} {e : CannyError}
    (h : fetch cursor limit = .error e) :
    listUsersLoop fetch limit cursor acc reports calls = .error e := by
  unfold listUsersLoop
  rw [h]

/-- An empty page ends the loop at once with the records accumulated so far,
whatever `has_next` and the cursor say, reporting no progress and issuing no
further fetch. -/
theorem loop_empty {α : Type} {fetch} {limit : Nat} {cursor : Option String}
    {acc : List α} {reports calls} {nc : Option String} {hn : Bool}
    (h : fetch cursor limit = .ok ([], nc, hn)) :
    listUsersLoop fetch limit cursor acc reports calls =
      .ok (acc, reports, calls ++ [cursor]) := by
  unfold listUsersLoop
  rw [h]
  simp

/-- A non-empty page with `has_next = false` or no returned cursor is
appended and reported, then the loop ends. -/
theorem loop_last {α : Type} {fetch} {limit : Nat} {cursor : Option String}
    {acc : List α} {reports calls} {us : List α} {nc : Option String} {hn : Bool}
    (h : fetch cursor limit = .ok (us, nc, hn)) (hus : us ≠ [])
    (hstop : hn = false ∨ nc = none) :
    listUsersLoop fetch limit cursor acc reports calls =
      .ok (acc ++ us, reports ++ [(acc ++ us).length], calls ++ [cursor]) := by
  unfold listUsersLoop
  rw [h]
  rcases hstop with hstop | hstop <;>
    simp [hus, hstop]

/-- A non-empty page that pushes the accumulator past 100000 records is
appended and reported, then the safety ceiling ends the loop. -/
theorem loop_ceiling {α : Type} {fetch} {limit : Nat} {cursor : Option String}
    {acc : List α} {reports calls} {us : List α} {nc : String}
    (h : fetch cursor limit = .ok (us, some nc, true)) (hus : us ≠ [])
    (hceil : (acc ++ us).length > 100000) :
    listUsersLoop fetch limit cursor acc reports calls =
      .ok (acc ++ us, reports ++ [(acc ++ us).length], calls ++ [cursor]) := by
  unfold listUsersLoop
  rw [h]
  simp only [List.length_append] at hceil
  simp [hus, hceil]

/-- A non-empty page with `has_next = true`, a cursor, and the ceiling not
yet exceeded: append, report, and continue from the new cursor. -/
theorem loop_step {α : Type} {fetch} {limit : Nat} {cursor : Option String}
    {acc : List α} {reports calls} {us : List α} {nc : String}
    (h : fetch cursor limit = .ok (us, some nc, true)) (hus : us ≠ [])
    (hceil : (acc ++ us).length ≤ 100000) :
    listUsersLoop fetch limit cursor acc reports calls =
      listUsersLoop fetch limit (some nc) (acc ++ us)
        (reports ++ [(acc ++ us).length]) (calls ++ [cursor]) := by
  conv_lhs => unfold listUsersLoop
  rw [h]
  have hle : ¬100000 < acc.length + us.length := by
    simp only [List.length_append] at hceil
    omega
  simp [hus, hle]

/-! ### Trace specification of a successful run -/

/-- Any successful run of the loop extends the fetch trace by the cursors it
fetched, returns the accumulator extended by exactly the non-empty pages
those fetches produced, in fetch order, and reports exactly the running
cumulative lengths after each non-empty page. -/
theorem loop_trace_spec {α : Type}
    (fetch : Option String → Nat → Except CannyError (List α × Option String × Bool))
    (limit : Nat) :
    ∀ (m : Nat) (cursor : Option String) (acc : List α) (reports : List Nat)
      (calls : List (Option String)) (users : List α) (r' : List Nat)
      (c' : List (Option String)),
      100001 - acc.length = m →
      listUsersLoop fetch limit cursor acc reports calls = .ok (users, r', c') →
      ∃ newCalls, c' = calls ++ newCalls ∧
        users = acc ++ (pagesOf fetch limit newCalls).flatten ∧
        r' = reports ++ cumLengths (pagesOf fetch limit newCalls) acc.length := by
  intro m
  induction m using Nat.strong_induction_on with
  | _ m ih =>
    intro cursor acc reports calls users r' c' hm hrun
    rcases hfe : fetch cursor limit with e | ⟨us, nc, hn⟩
    · rw [loop_error hfe] at hrun
      exact absurd hrun (by simp)
    · by_cases hus : us = []
      · subst hus
        rw [loop_empty hfe] at hrun
        simp only [Except.ok.injEq, Prod.mk.injEq] at hrun
        obtain ⟨rfl, rfl, rfl⟩ := hrun
        refine ⟨[cursor], rfl, ?_, ?_⟩ <;>
          simp [pagesOf, hfe, cumLengths]
      · have husE : us.isEmpty = false := by
          cases us with
          | nil => exact absurd rfl hus
          | cons a l => rfl
        have hpcons : ∀ l, pagesOf fetch limit (cursor :: l) = us :: pagesOf fetch limit l := by
          intro l
          simp [pagesOf, hfe, husE]
        have hstop : ∀ (h : listUsersLoop fetch limit cursor acc reports calls =
              .ok (acc ++ us, reports ++ [(acc ++ us).length], calls ++ [cursor])),
            listUsersLoop fetch limit cursor acc reports calls = .ok (users, r', c') →
            ∃ newCalls, c' = calls ++ newCalls ∧
              users = acc ++ (pagesOf fetch limit newCalls).flatten ∧
              r' = reports ++ cumLengths (pagesOf fetch limit newCalls) acc.length := by
          intro h hrun
          rw [h] at hrun
          simp only [Except.ok.injEq, Prod.mk.injEq] at hrun
          obtain ⟨rfl, rfl, rfl⟩ := hrun
          refine ⟨[cursor], rfl, ?_, ?_⟩ <;>
          · simp only [hpcons]
            simp [pagesOf, cumLengths, List.length_append]
        cases hn with
        | false => exact hstop (loop_last hfe hus (Or.inl rfl)) hrun
        | true =>
          cases nc with
          | none => exact hstop (loop_last hfe hus (Or.inr rfl)) hrun
          | some s =>
            by_cases hceil : (acc ++ us).length ≤ 100000
            · rw [loop_step hfe hus hceil] at hrun
              have hlt : 100001 - (acc ++ us).length < m := by
                have h1 : 0 < us.length := List.length_pos.mpr hus
                simp only [List.length_append] at hceil ⊢
                omega
              obtain ⟨newCalls', h1, h2, h3⟩ :=
                ih _ hlt (some s) (acc ++ us) (reports ++ [(acc ++ us).length])
                  (calls ++ [cursor]) users r' c' rfl hrun
              refine ⟨cursor :: newCalls', ?_, ?_, ?_⟩
              · rw [h1]
                simp
              · rw [h2, hpcons]
                simp [List.flatten_cons, List.append_assoc]
              · rw [h3, hpcons]
                simp [cumLengths, List.length_append, List.append_assoc]
            · have hc : (acc ++ us).length > 100000 := by omega
              exact hstop (loop_ceiling hfe hus hc) hrun

/-- Against a server that always answers a non-empty page of at most `B`
records with `hasNextPage = true` and a cursor, the loop still returns: the
ceiling stops it with more than 100000 but at most `100000 + B` records. -/
theorem loop_ceiling_stops {α : Type}
    (fetch : Option String → Nat → Except CannyError (List α × Option String × Bool))
    (limit B : Nat)
    (hsrv : ∀ c, ∃ us nc, fetch c limit = .ok (us, some nc, true) ∧
      us ≠ [] ∧ us.length ≤ B) :
    ∀ (m : Nat) (cursor : Option String) (acc : List α) (reports : List Nat)
      (calls : List (Option String)),
      100001 - acc.length = m → acc.length ≤ 100000 →
      ∃ users r' c', listUsersLoop fetch limit cursor acc reports calls =
          .ok (users, r', c') ∧
        100000 < users.length ∧ users.length ≤ 100000 + B := by
  intro m
  induction m using Nat.strong_induction_on with
  | _ m ih =>
    intro cursor acc reports calls hm hacc
    obtain ⟨us, nc, hfe, hus, hB⟩ := hsrv cursor
    by_cases hceil : (acc ++ us).length ≤ 100000
    · rw [loop_step hfe hus hceil]
      have hlt : 100001 - (acc ++ us).length < m := by
        have h1 : 0 < us.length := List.length_pos.mpr hus
        simp only [List.length_append] at hceil ⊢
        omega
      exact ih _ hlt (some nc) (acc ++ us) _ _ rfl hceil
    · have hc : (acc ++ us).length > 100000 := by omega
      refine ⟨acc ++ us, _, _, loop_ceiling hfe hus hc, hc, ?_⟩
      simp only [List.length_append]
      omega

/-! ### Depagination of a synthetic N-full-pages-then-final server -/

/-- The cursor the synthetic server issues for page `i` decodes back to
`i`. -/
theorem cursorIndex_unaryCursor (i : Nat) : cursorIndex (some (unaryCursor i)) = i := by
  simp [cursorIndex, unaryCursor]

/-- Loop invariant for `synthFetch`: starting at page `N - k` with the
matching accumulator length, the loop returns the accumulator followed by
the remaining full pages and the final page, provided the full pages have
length `pageSize`, the final page is shorter (or empty), and the total full
amount stays within the safety ceiling. -/
theorem synth_loop {α : Type} (fp : Nat → List α) (N pageSize : Nat) (final : List α)
    (hfull : ∀ i, i < N → (fp i).length = pageSize)
    (hfin : final.length < pageSize ∨ final = [])
    (hceil : N * pageSize ≤ 100000) :
    ∀ (k : Nat) (cursor : Option String) (acc : List α) (reports : List Nat)
      (calls : List (Option String)),
      k ≤ N → cursorIndex cursor = N - k → acc.length = (N - k) * pageSize →
      ∃ r' c', listUsersLoop (synthFetch fp N final) 100 cursor acc reports calls =
        .ok (acc ++ ((List.range' (N - k) k).map fp).flatten ++ final, r', c') := by
  intro k
  induction k with
  | zero =>
    intro cursor acc reports calls hk hcur hacc
    have hfe : synthFetch fp N final cursor 100 = .ok (final, none, false) := by
      simp only [synthFetch, hcur]
      simp
    by_cases hf : final = []
    · subst hf
      rw [loop_empty hfe]
      exact ⟨reports, calls ++ [cursor], by simp⟩
    · rw [loop_last hfe hf (Or.inl rfl)]
      exact ⟨reports ++ [(acc ++ final).length], calls ++ [cursor], by simp⟩
  | succ k ihk =>
    intro cursor acc reports calls hk hcur hacc
    have hiN : N - (k + 1) < N := by omega
    have hfe : synthFetch fp N final cursor 100 =
        .ok (fp (N - (k + 1)), some (unaryCursor (N - (k + 1) + 1)), true) := by
      simp only [synthFetch, hcur]
      simp [hiN]
    have hsucc : N - (k + 1) + 1 = N - k := by omega
    by_cases hpage : fp (N - (k + 1)) = []
    · have hps : pageSize = 0 := by
        have := hfull _ hiN
        rw [hpage] at this
        simpa using this.symm
      have hfinal0 : final = [] := by
        rcases hfin with h | h
        · omega
        · exact h
      rw [hpage] at hfe
      rw [loop_empty hfe]
      refine ⟨reports, calls ++ [cursor], ?_⟩
      have hjoin : ((List.range' (N - (k + 1)) (k + 1)).map fp).flatten = [] := by
        rw [List.flatten_eq_nil_iff]
        intro l hl
        obtain ⟨i, hi, rfl⟩ := List.mem_map.mp hl
        have hiN' : i < N := by
          have := List.mem_range'.mp hi
          omega
        exact List.length_eq_zero.mp (by rw [hfull i hiN', hps])
      rw [hjoin, hfinal0]
      simp
    · have hlen' : (acc ++ fp (N - (k + 1))).length = (N - k) * pageSize := by
        simp only [List.length_append, hacc, hfull _ hiN]
        rw [← hsucc, Nat.succ_mul]
      have hceil' : (acc ++ fp (N - (k + 1))).length ≤ 100000 := by
        rw [hlen']
        calc (N - k) * pageSize ≤ N * pageSize :=
              Nat.mul_le_mul_right pageSize (by omega)
          _ ≤ 100000 := hceil
      rw [loop_step hfe hpage hceil']
      obtain ⟨r', c', hres⟩ := ihk (some (unaryCursor (N - (k + 1) + 1)))
        (acc ++ fp (N - (k + 1))) (reports ++ [(acc ++ fp (N - (k + 1))).length])
        (calls ++ [cursor]) (by omega) (by rw [cursorIndex_unaryCursor, hsucc]) hlen'
      refine ⟨r', c', ?_⟩
      rw [hres]
      have hrange : List.range' (N - (k + 1)) (k + 1) =
          (N - (k + 1)) :: List.range' (N - k) k := by
        rw [List.range'_succ, hsucc]
      rw [hrange]
      simp [List.flatten_cons, List.append_assoc]

/-- `cumLengths` reports once per page. -/
theorem cumLengths_length {α : Type} (ps : List (List α)) (n : Nat) :
    (cumLengths ps n).length = ps.length := by
  induction ps generalizing n with
  | nil => rfl
  | cons p ps ih => simp [cumLengths, ih]

/-- `pagesOf` drops a fetched cursor whose fetch fails. -/
theorem pagesOf_cons_error {α : Type} {fetch} {limit : Nat} {c : Option String}
    {cs : List (Option String)} {e : CannyError} (hfe : fetch c limit = .error e) :
    pagesOf (α := α) fetch limit (c :: cs) = pagesOf fetch limit cs := by
  simp [pagesOf, List.filterMap_cons, hfe]

/-- `pagesOf` drops a fetched cursor answered with an empty page. -/
theorem pagesOf_cons_empty {α : Type} {fetch} {limit : Nat} {c : Option String}
    {cs : List (Option String)} {nc : Option String} {hn : Bool}
    (hfe : fetch c limit = .ok (([] : List α), nc, hn)) :
    pagesOf fetch limit (c :: cs) = pagesOf fetch limit cs := by
  simp [pagesOf, List.filterMap_cons, hfe]

/-- `pagesOf` keeps a fetched cursor answered with a non-empty page. -/
theorem pagesOf_cons_ne {α : Type} {fetch} {limit : Nat} {c : Option String}
    {cs : List (Option String)} {us : List α} {nc : Option String} {hn : Bool}
    (hfe : fetch c limit = .ok (us, nc, hn)) (hus : us ≠ []) :
    pagesOf fetch limit (c :: cs) = us :: pagesOf fetch limit cs := by
  have husE : us.isEmpty = false := by
    cases us with
    | nil => exact absurd rfl hus
    | cons a l => rfl
  simp [pagesOf, List.filterMap_cons, hfe, husE]

/-- One non-empty page per fetched cursor that answered non-empty. -/
theorem pagesOf_length {α : Type}
    (fetch : Option String → Nat → Except CannyError (List α × Option String × Bool))
    (limit : Nat) (calls : List (Option String)) :
    (pagesOf fetch limit calls).length = calls.countP (nonEmptyCall fetch limit) := by
  induction calls with
  | nil => rfl
  | cons c cs ih =>
    rw [List.countP_cons]
    rcases hfe : fetch c limit with e | ⟨us, nc, hn⟩
    · rw [pagesOf_cons_error hfe, ih]
      simp [nonEmptyCall, hfe]
    · by_cases hus : us = []
      · subst hus
        rw [pagesOf_cons_empty hfe, ih]
        simp [nonEmptyCall, hfe]
      · have husE : us.isEmpty = false := by
          cases us with
          | nil => exact absurd rfl hus
          | cons a l => rfl
        rw [pagesOf_cons_ne hfe hus]
        simp [nonEmptyCall, hfe, husE, ih]

/-- The pages `pagesOf` collects are non-empty. -/
theorem pagesOf_ne_nil {α : Type}
    (fetch : Option String → Nat → Except CannyError (List α × Option String × Bool))
    (limit : Nat) (calls : List (Option String)) :
    ∀ p ∈ pagesOf fetch limit calls, p ≠ [] := by
  induction calls with
  | nil => simp [pagesOf]
  | cons c cs ih =>
    intro p hp
    rcases hfe : fetch c limit with e | ⟨us, nc, hn⟩
    · rw [pagesOf_cons_error hfe] at hp
      exact ih p hp
    · by_cases hus : us = []
      · subst hus
        rw [pagesOf_cons_empty hfe] at hp
        exact ih p hp
      · rw [pagesOf_cons_ne hfe hus] at hp
        rcases List.mem_cons.mp hp with rfl | hp
        · exact hus
        · exact ih p hp

/-- Running totals over non-empty pages are strictly increasing. -/
theorem cumLengths_chain {α : Type} (ps : List (List α)) (n : Nat)
    (h : ∀ p ∈ ps, p ≠ []) : List.Chain' (· < ·) (cumLengths ps n) := by
  induction ps generalizing n with
  | nil => simp [cumLengths]
  | cons p ps ih =>
    rw [cumLengths, List.chain'_cons']
    refine ⟨?_, ih (n + p.length) (fun q hq => h q (List.mem_cons_of_mem p hq))⟩
    intro y hy
    cases ps with
    | nil => simp [cumLengths] at hy
    | cons q qs =>
      simp only [cumLengths, List.head?_cons, Option.mem_def, Option.some.injEq] at hy
      have hq : q ≠ [] := h q (by simp)
      have : 0 < q.length := List.length_pos.mpr hq
      omega

/-! ## The claims -/

/-- A full page of 100001 records, kept behind a definition so that proofs
reason about it through its length alone. -/
def bigPage : List Nat := List.replicate 100001 0

/-- The big page has 100001 records. -/
theorem bigPage_length : bigPage.length = 100001 := by
  rw [bigPage, List.length_replicate]

/-- C1, as stated, is falsified by the safety ceiling: a synthetic server
with one full page of 100001 records (`hasNextPage = true`, cursor issued)
followed by a final partial page `[0]` with `hasNextPage = false` makes the
run stop at the ceiling after the first page, so the result is the first
page alone, not the concatenation `bigPage ++ [0]` of all non-final-empty
pages. -/
theorem c1_counterexample :
    ([0] : List Nat).length < bigPage.length ∧
    list_users (synthFetch (fun _ => bigPage) 1 [0]) =
      .ok (bigPage, [100001], [none]) ∧
    bigPage ≠ bigPage ++ [0] := by
  refine ⟨by rw [bigPage_length]; decide, ?_, ?_⟩
  · have hus : bigPage ≠ [] := by
      intro h
      have h1 := congrArg List.length h
      rw [bigPage_length] at h1
      simp at h1
    have hfe : synthFetch (fun _ => bigPage) 1 [0] none 100 =
        .ok (bigPage, some (unaryCursor 1), true) := by
      simp [synthFetch, cursorIndex]
    have hceil : (([] : List Nat) ++ bigPage).length > 100000 := by
      rw [List.nil_append, bigPage_length]
      decide
    rw [list_users, loop_ceiling hfe hus hceil]
    rw [List.nil_append, bigPage_length]
    rfl
  · intro h
    have h1 := congrArg List.length h
    rw [List.length_append, bigPage_length,
      show ([0] : List Nat).length = 1 from rfl] at h1
    omega

/-- C1 (amended with the safety-ceiling side condition): for a synthetic
server returning `N` full pages of `pageSize` records followed by one final
page that is shorter than a full page or empty, with `hasNextPage = false`
on the final page, and with the full pages within the 100000-record safety
ceiling, `list_users` returns exactly the concatenation of all pages in
server order (an empty final page appends nothing). -/
theorem c1_depagination_concat {α : Type} (fp : Nat → List α) (N pageSize : Nat)
    (final : List α)
    (hfull : ∀ i, i < N → (fp i).length = pageSize)
    (hfin : final.length < pageSize ∨ final = [])
    (hceil : N * pageSize ≤ 100000) :
    ∃ reports calls, list_users (synthFetch fp N final) =
      .ok (((List.range N).map fp).flatten ++ final, reports, calls) := by
  obtain ⟨r', c', h⟩ := synth_loop fp N pageSize final hfull hfin hceil N none [] [] []
    (le_refl N) (by simp [cursorIndex]) (by simp)
  rw [Nat.sub_self] at h
  rw [← List.range_eq_range'] at h
  refine ⟨r', c', ?_⟩
  rw [list_users]
  simpa using h

/-- Witness for C1: two full pages of two records, final partial page
`[9]`, total within the ceiling; the run returns `[0, 1, 2, 3, 9]`. -/
theorem c1_depagination_concat_witness :
    (∀ i, i < 2 → (((fun i => [2 * i, 2 * i + 1]) : Nat → List Nat) i).length = 2) ∧
    (([9] : List Nat).length < 2 ∨ ([9] : List Nat) = []) ∧
    2 * 2 ≤ 100000 ∧
    ∃ reports calls, list_users (synthFetch (fun i => [2 * i, 2 * i + 1]) 2 [9]) =
      .ok ([0, 1, 2, 3, 9], reports, calls) := by
  have h1 : ∀ i, i < 2 → (((fun i => [2 * i, 2 * i + 1]) : Nat → List Nat) i).length = 2 := by
    intro i _
    rfl
  have h2 : (([9] : List Nat).length < 2 ∨ ([9] : List Nat) = []) := Or.inl (by decide)
  have h3 : 2 * 2 ≤ 100000 := by decide
  refine ⟨h1, h2, h3, ?_⟩
  obtain ⟨r, c, h⟩ := c1_depagination_concat (fun i => [2 * i, 2 * i + 1]) 2 2 [9] h1 h2 h3
  exact ⟨r, c, h⟩

/-- C2: a page with an empty item list ends the loop at once — even with
`hasNextPage = true` and a cursor — returning the records accumulated so
far, reporting no progress and issuing no further fetch (the fetch trace
grows only by the fetch that returned the empty page); a run whose first
page is empty returns the empty accumulator. -/
theorem c2_empty_page_stops {α : Type}
    (fetch : Option String → Nat → Except CannyError (List α × Option String × Bool))
    (limit : Nat) (cursor : Option String) (acc : List α) (reports : List Nat)
    (calls : List (Option String)) (nc : Option String) (hn : Bool)
    (h : fetch cursor limit = .ok ([], nc, hn)) :
    listUsersLoop fetch limit cursor acc reports calls =
      .ok (acc, reports, calls ++ [cursor]) ∧
    (fetch none 100 = .ok ([], nc, hn) →
      list_users fetch = .ok ([], [], [none])) := by
  refine ⟨loop_empty h, fun h0 => ?_⟩
  rw [list_users, loop_empty h0]
  rfl

/-- Witness for C2: a server whose page is empty yet claims
`hasNextPage = true` with a cursor; the loop stops with the accumulator. -/
theorem c2_empty_page_stops_witness :
    (fun (_ : Option String) (_ : Nat) =>
        (Except.ok (([] : List Nat), some "c1", true) :
          Except CannyError (List Nat × Option String × Bool))) (some "c0") 100 =
      .ok ([], some "c1", true) ∧
    (listUsersLoop (fun _ _ => .ok (([] : List Nat), some "c1", true)) 100 (some "c0")
        [7] [1] [none] = .ok ([7], [1], [none, some "c0"]) ∧
      ((fun (_ : Option String) (_ : Nat) =>
          (Except.ok (([] : List Nat), some "c1", true) :
            Except CannyError (List Nat × Option String × Bool))) none 100 =
          .ok ([], some "c1", true) →
        list_users (fun _ _ => .ok (([] : List Nat), some "c1", true)) =
          .ok ([], [], [none]))) :=
  ⟨rfl, c2_empty_page_stops (fun _ _ => .ok ([], some "c1", true)) 100 (some "c0")
    [7] [1] [none] (some "c1") true rfl⟩

/-- C3: against a server that never signals termination (always a non-empty
page of at most `B` records with `hasNextPage = true` and a cursor), the
depagination run still returns, stopped by the safety ceiling once the
accumulated count exceeds 100000 (and within one page of it). -/
theorem c3_ceiling_terminates {α : Type}
    (fetch : Option String → Nat → Except CannyError (List α × Option String × Bool))
    (B : Nat)
    (hsrv : ∀ c, ∃ us nc, fetch c 100 = .ok (us, some nc, true) ∧
      us ≠ [] ∧ us.length ≤ B) :
    ∃ users reports calls, list_users fetch = .ok (users, reports, calls) ∧
      100000 < users.length ∧ users.length ≤ 100000 + B := by
  obtain ⟨users, r', c', h, h1, h2⟩ :=
    loop_ceiling_stops fetch 100 B hsrv 100001 none [] [] [] (by simp) (by simp)
  exact ⟨users, r', c', by rw [list_users, h], h1, h2⟩

/-- Witness for C3: the constant server answering `[0]` with
`hasNextPage = true` forever; the run stops just past the ceiling. -/
theorem c3_ceiling_terminates_witness :
    (∀ c : Option String, ∃ (us : List Nat) (nc : String),
      (fun (_ : Option String) (_ : Nat) =>
          (Except.ok ([0], some "x", true) :
            Except CannyError (List Nat × Option String × Bool))) c 100 =
        .ok (us, some nc, true) ∧ us ≠ [] ∧ us.length ≤ 1) ∧
    ∃ users reports calls,
      list_users (fun _ _ => .ok (([0] : List Nat), some "x", true)) =
        .ok (users, reports, calls) ∧
      100000 < users.length ∧ users.length ≤ 100000 + 1 := by
  have hsrv : ∀ c : Option String, ∃ (us : List Nat) (nc : String),
      (fun (_ : Option String) (_ : Nat) =>
          (Except.ok ([0], some "x", true) :
            Except CannyError (List Nat × Option String × Bool))) c 100 =
        .ok (us, some nc, true) ∧ us ≠ [] ∧ us.length ≤ 1 :=
    fun _ => ⟨[0], "x", rfl, by decide, by decide⟩
  exact ⟨hsrv, c3_ceiling_terminates (fun _ _ => .ok ([0], some "x", true)) 1 hsrv⟩

/-- C4: in any successful run, the progress trace is exactly one report per
non-empty page fetched (none for an empty page), each report being the
cumulative record count at that point (the running totals of the non-empty
pages' lengths from zero), the reported counts strictly increase, and the
returned records are those pages in order. -/
theorem c4_progress_reports {α : Type}
    (fetch : Option String → Nat → Except CannyError (List α × Option String × Bool))
    (users : List α) (reports : List Nat) (calls : List (Option String))
    (h : list_users fetch = .ok (users, reports, calls)) :
    reports = cumLengths (pagesOf fetch 100 calls) 0 ∧
    reports.length = calls.countP (nonEmptyCall fetch 100) ∧
    List.Chain' (· < ·) reports ∧
    users = (pagesOf fetch 100 calls).flatten := by
  rw [list_users] at h
  obtain ⟨newCalls, h1, h2, h3⟩ :=
    loop_trace_spec fetch 100 100001 none [] [] [] users reports calls (by simp) h
  have hnc : calls = newCalls := by simpa using h1
  subst hnc
  simp only [List.nil_append, List.length_nil] at h2 h3
  refine ⟨h3, ?_, ?_, h2⟩
  · rw [h3, cumLengths_length, pagesOf_length]
  · rw [h3]
    exact cumLengths_chain _ 0 (pagesOf_ne_nil fetch 100 calls)

/-- The two-page server used in the witness for C4: `[5]` then `[6]`. -/
def c4srv : Option String → Nat → Except CannyError (List Nat × Option String × Bool)
  | none, _ => .ok ([5], some "a", true)
  | some _, _ => .ok ([6], none, false)

/-- Witness for C4: a two-page run (`[5]` then `[6]`); the reports are the
running totals `[1, 2]`, one per page. -/
theorem c4_progress_reports_witness :
    list_users c4srv = .ok ([5, 6], [1, 2], [none, some "a"]) ∧
    ([1, 2] : List Nat) = cumLengths (pagesOf c4srv 100 [none, some "a"]) 0 ∧
    ([1, 2] : List Nat).length = ([none, some "a"] : List (Option String)).countP
      (nonEmptyCall c4srv 100) ∧
    List.Chain' (· < ·) ([1, 2] : List Nat) ∧
    ([5, 6] : List Nat) = (pagesOf c4srv 100 [none, some "a"]).flatten := by
  have hrun : list_users c4srv = .ok ([5, 6], [1, 2], [none, some "a"]) := by
    rw [list_users,
      loop_step (show c4srv none 100 = .ok ([5], some "a", true) from rfl)
        (by decide) (by decide),
      loop_last (show c4srv (some "a") 100 = .ok ([6], none, false) from rfl)
        (by decide) (Or.inr rfl)]
    rfl
  obtain ⟨p1, p2, p3, p4⟩ := c4_progress_reports c4srv _ _ _ hrun
  exact ⟨hrun, p1, p2, p3, p4⟩

/-- C5: the response decoder classifies by status then shape.  A non-2xx
status yields `ApiError` carrying the status and the verbatim body; a 2xx
retrieve response whose wrapped `post` field is `null` yields `none`, not
an error; a 2xx response whose body the JSON library cannot parse yields
`DecodeError`; and the two error kinds are distinct. -/
theorem c5_response_decoder :
    (∀ status text parsed, isSuccess status = false →
      get_post_decode status text parsed = .error (.apiError status text)) ∧
    (∀ status text fields, isSuccess status = true →
      lookupField fields "post" = some Json.null →
      get_post_decode status text (some (Json.obj fields)) = .ok none) ∧
    (∀ status text, isSuccess status = true →
      get_post_decode status text none =
        .error (.decodeError "Failed to parse response")) ∧
    (∀ s b c, CannyError.apiError s b ≠ CannyError.decodeError c) := by
  refine ⟨?_, ?_, ?_, ?_⟩
  · intro status text parsed h
    simp [get_post_decode, h]
  · intro status text fields h hp
    simp [get_post_decode, h, decodePostRetrieve, Json.asObj,
      decodePostRetrieve.decOptPost, hp]
  · intro status text h
    simp [get_post_decode, h]
  · intro s b c h
    exact CannyError.noConfusion h

/-- Witness for C5: status 404 with body `oops`; status 200 with body
`(obj with post http-null)`; status 200 with an unparseable body. -/
theorem c5_response_decoder_witness :
    (isSuccess 404 = false ∧
      get_post_decode 404 "oops" (some Json.null) = .error (.apiError 404 "oops")) ∧
    (isSuccess 200 = true ∧
      lookupField [("post", Json.null)] "post" = some Json.null ∧
      get_post_decode 200 "\x7b\x7d" (some (Json.obj [("post", Json.null)])) = .ok none) ∧
    get_post_decode 200 "not json" none =
      .error (.decodeError "Failed to parse response") ∧
    CannyError.apiError 500 "b" ≠ CannyError.decodeError "c" := by
  refine ⟨⟨rfl, ?_⟩, ⟨rfl, rfl, ?_⟩, ?_, ?_⟩
  · exact c5_response_decoder.1 404 "oops" (some Json.null) rfl
  · exact c5_response_decoder.2.1 200 "\x7b\x7d" [("post", Json.null)] rfl rfl
  · exact c5_response_decoder.2.2.1 200 "not json" rfl
  · exact c5_response_decoder.2.2.2 500 "b" "c"

/-- C7: on both v2 list endpoints the payload array is taken from `items`
first (even when the legacy key is also present), else from the legacy
resource key (`users` / `companies`), else it defaults to empty so the
decode succeeds with no records; each element is then decoded (a bad
element fails the whole page), and `hasNextPage` / `cursor` are read from
the object afterwards. -/
theorem c7_v2_payload_extraction :
    (∀ status text fields v, isSuccess status = true →
      lookupField fields "items" = some v →
      fetch_users_page_decode status text (some (Json.obj fields)) =
        (match decodeUsersArr v with
         | none => .error (.decodeError "Failed to parse users from response")
         | some users => .ok (users, readCursor fields, readHasNext fields))) ∧
    (∀ status text fields v, isSuccess status = true →
      lookupField fields "items" = none → lookupField fields "users" = some v →
      fetch_users_page_decode status text (some (Json.obj fields)) =
        (match decodeUsersArr v with
         | none => .error (.decodeError "Failed to parse users from response")
         | some users => .ok (users, readCursor fields, readHasNext fields))) ∧
    (∀ status text fields, isSuccess status = true →
      lookupField fields "items" = none → lookupField fields "users" = none →
      fetch_users_page_decode status text (some (Json.obj fields)) =
        .ok ([], readCursor fields, readHasNext fields)) ∧
    (∀ status text fields v, isSuccess status = true →
      lookupField fields "items" = some v →
      list_companies_decode status text (some (Json.obj fields)) =
        (match decodeCompaniesArr v with
         | none => .error (.decodeError "Failed to parse companies from response")
         | some companies =>
             .ok ⟨(lookupField fields "hasNextPage").bind Json.asBool,
               readCursor fields, companies⟩)) ∧
    (∀ status text fields v, isSuccess status = true →
      lookupField fields "items" = none → lookupField fields "companies" = some v →
      list_companies_decode status text (some (Json.obj fields)) =
        (match decodeCompaniesArr v with
         | none => .error (.decodeError "Failed to parse companies from response")
         | some companies =>
             .ok ⟨(lookupField fields "hasNextPage").bind Json.asBool,
               readCursor fields, companies⟩)) ∧
    (∀ status text fields, isSuccess status = true →
      lookupField fields "items" = none → lookupField fields "companies" = none →
      list_companies_decode status text (some (Json.obj fields)) =
        .ok ⟨(lookupField fields "hasNextPage").bind Json.asBool,
          readCursor fields, []⟩) := by
  refine ⟨?_, ?_, ?_, ?_, ?_, ?_⟩ <;>
    intro status text fields
  · intro v h hi
    simp [fetch_users_page_decode, h, Json.asObj, extractPayload, hi]
  · intro v h hi hu
    simp [fetch_users_page_decode, h, Json.asObj, extractPayload, hi, hu, Option.orElse]
  · intro h hi hu
    simp [fetch_users_page_decode, h, Json.asObj, extractPayload, hi, hu,
      Option.orElse, decodeUsersArr]
    rfl
  · intro v h hi
    simp [list_companies_decode, h, Json.asObj, extractPayload, hi]
  · intro v h hi hu
    simp [list_companies_decode, h, Json.asObj, extractPayload, hi, hu, Option.orElse]
  · intro h hi hu
    simp [list_companies_decode, h, Json.asObj, extractPayload, hi, hu,
      Option.orElse, decodeCompaniesArr]
    rfl

/-- Witness for C7: an object carrying both `items` and the legacy key
decodes from `items`; a legacy-only object decodes from the legacy key; an
object with neither decodes to no records. -/
theorem c7_v2_payload_extraction_witness :
    (isSuccess 200 = true ∧
      lookupField [("items", Json.arr []), ("users", Json.str "x")] "items" =
        some (Json.arr []) ∧
      fetch_users_page_decode 200 "body"
          (some (Json.obj [("items", Json.arr []), ("users", Json.str "x")])) =
        (match decodeUsersArr (Json.arr []) with
         | none => .error (.decodeError "Failed to parse users from response")
         | some users => .ok (users,
             readCursor [("items", Json.arr []), ("users", Json.str "x")],
             readHasNext [("items", Json.arr []), ("users", Json.str "x")]))) ∧
    (lookupField [("users", Json.arr [])] "items" = none ∧
      fetch_users_page_decode 200 "body" (some (Json.obj [("users", Json.arr [])])) =
        (match decodeUsersArr (Json.arr []) with
         | none => .error (.decodeError "Failed to parse users from response")
         | some users => .ok (users, readCursor [("users", Json.arr [])],
             readHasNext [("users", Json.arr [])]))) ∧
    (fetch_users_page_decode 200 "body" (some (Json.obj [("hasNextPage", Json.bool true)])) =
      .ok ([], readCursor [("hasNextPage", Json.bool true)],
        readHasNext [("hasNextPage", Json.bool true)])) ∧
    (list_companies_decode 200 "body" (some (Json.obj [("companies", Json.arr [])])) =
      (match decodeCompaniesArr (Json.arr []) with
       | none => .error (.decodeError "Failed to parse companies from response")
       | some companies =>
           .ok ⟨(lookupField [("companies", Json.arr [])] "hasNextPage").bind Json.asBool,
             readCursor [("companies", Json.arr [])], companies⟩)) ∧
    (list_companies_decode 200 "body" (some (Json.obj [])) =
      .ok ⟨(lookupField ([] : List (String × Json)) "hasNextPage").bind Json.asBool,
        readCursor ([] : List (String × Json)), []⟩) := by
  refine ⟨⟨rfl, rfl, ?_⟩, ⟨rfl, ?_⟩, ?_, ?_, ?_⟩
  · exact c7_v2_payload_extraction.1 200 "body"
      [("items", Json.arr []), ("users", Json.str "x")] (Json.arr []) rfl rfl
  · exact c7_v2_payload_extraction.2.1 200 "body" [("users", Json.arr [])]
      (Json.arr []) rfl rfl rfl
  · exact c7_v2_payload_extraction.2.2.1 200 "body" [("hasNextPage", Json.bool true)]
      rfl rfl rfl
  · exact c7_v2_payload_extraction.2.2.2.2.1 200 "body" [("companies", Json.arr [])]
      (Json.arr []) rfl rfl rfl
  · exact c7_v2_payload_extraction.2.2.2.2.2 200 "body" [] rfl rfl rfl

/-- C8: on `get_user` a 2xx response whose body cannot be parsed or does
not decode into the expected user shape yields `Ok(None)` rather than a
`DecodeError` — unlike the other modelled retrieve endpoint (`get_post`),
where a 2xx body that cannot be parsed is a decode error. -/
theorem c8_get_user_permissive :
    (∀ status text, isSuccess status = true →
      get_user_decode status text none = .ok none) ∧
    (∀ status text v, isSuccess status = true → decodeUserFull v = none →
      get_user_decode status text (some v) = .ok none) ∧
    (∀ status text, isSuccess status = true →
      get_post_decode status text none =
        .error (.decodeError "Failed to parse response")) := by
  refine ⟨?_, ?_, ?_⟩
  · intro status text h
    simp [get_user_decode, h]
  · intro status text v h hv
    simp [get_user_decode, h, hv]
  · intro status text h
    simp [get_post_decode, h]

/-- Witness for C8: a 200 response whose body is a bare JSON string decodes
to `none` on `get_user`; an unparseable 200 body is an error on
`get_post`. -/
theorem c8_get_user_permissive_witness :
    (isSuccess 200 = true ∧ get_user_decode 200 "bad" none = .ok none) ∧
    (decodeUserFull (Json.str "x") = none ∧
      get_user_decode 200 "bad" (some (Json.str "x")) = .ok none) ∧
    get_post_decode 200 "bad" none =
      .error (.decodeError "Failed to parse response") := by
  refine ⟨⟨rfl, ?_⟩, ⟨rfl, ?_⟩, ?_⟩
  · exact c8_get_user_permissive.1 200 "bad" rfl
  · exact c8_get_user_permissive.2.1 200 "bad" (Json.str "x") rfl rfl
  · exact c8_get_user_permissive.2.2 200 "bad" rfl

/-- C9, as stated ("whenever an explicit value is given it is returned"),
is falsified by `resolve_api_url`: an explicit URL equal to the default is
ignored in favour of the stored one. -/
theorem c9_counterexample :
    resolve_api_url (some "https://example.com/api/v1") (some DEFAULT_API_URL)
        DEFAULT_API_URL = some "https://example.com/api/v1" ∧
    (some "https://example.com/api/v1" : Option String) ≠ some DEFAULT_API_URL := by
  refine ⟨?_, by decide⟩
  simp [resolve_api_url]

/-- C9 (amended): the API key resolves to the explicit value whenever one
is given, else the stored value, else an error; the API URL resolves to the
explicit value only when it differs from the default, otherwise (explicit
absent or equal to the default) to the stored value, else to `none`, the
caller then applying the default. -/
theorem c9_credential_resolution :
    (∀ (storedKey : Option String) (k : String),
      resolve_api_key storedKey (some k) = .ok k) ∧
    (∀ k : String, resolve_api_key (some k) none = .ok k) ∧
    (∃ msg, resolve_api_key none none = .error msg) ∧
    (∀ (storedUrl : Option String) (u d : String), u ≠ d →
      resolve_api_url storedUrl (some u) d = some u) ∧
    (∀ (storedUrl : Option String) (d : String),
      resolve_api_url storedUrl (some d) d = storedUrl) ∧
    (∀ (storedUrl : Option String) (d : String),
      resolve_api_url storedUrl none d = storedUrl) := by
  refine ⟨fun _ _ => rfl, fun _ => rfl, ⟨_, rfl⟩, ?_, ?_, fun _ _ => rfl⟩
  · intro storedUrl u d hne
    simp [resolve_api_url, hne]
  · intro storedUrl d
    simp [resolve_api_url]

/-- Witness for C9: a differing explicit URL wins over a stored one. -/
theorem c9_credential_resolution_witness :
    resolve_api_key (some "sk") (some "ek") = .ok "ek" ∧
    resolve_api_key (some "sk") none = .ok "sk" ∧
    ("https://a.example/api/v1" : String) ≠ DEFAULT_API_URL ∧
    resolve_api_url (some "https://s.example/api/v1") (some "https://a.example/api/v1")
      DEFAULT_API_URL = some "https://a.example/api/v1" := by
  have hne : ("https://a.example/api/v1" : String) ≠ DEFAULT_API_URL := by decide
  exact ⟨c9_credential_resolution.1 (some "sk") "ek",
    c9_credential_resolution.2.1 "sk", hne,
    c9_credential_resolution.2.2.2.1 (some "https://s.example/api/v1")
      "https://a.example/api/v1" DEFAULT_API_URL hne⟩

/-- Key-set characterisation of `body[k] = v` on a JSON object: the keys
afterwards are the old keys plus `k`. -/
theorem mem_keys_setField (fields : List (String × Json)) (k0 : String) (v : Json)
    (k : String) : k ∈ keys (setField fields k0 v) ↔ k ∈ keys fields ∨ k = k0 := by
  induction fields with
  | nil => simp [setField, keys]
  | cons f rest ih =>
    obtain ⟨k1, v1⟩ := f
    by_cases h : k1 = k0
    · subst h
      have hs : setField ((k1, v1) :: rest) k1 v = (k1, v) :: rest := by
        simp [setField]
      rw [hs]
      simp only [keys, List.map_cons, List.mem_cons]
      tauto
    · have hs : setField ((k1, v1) :: rest) k0 v = (k1, v1) :: setField rest k0 v := by
        simp [setField, h]
      rw [hs]
      simp only [keys, List.map_cons, List.mem_cons] at ih ⊢
      rw [ih]
      tauto

/-- Key-set characterisation of one optional-field insertion. -/
theorem mem_keys_setOptField {β : Type} (body : List (String × Json)) (key : String)
    (o : Option β) (f : β → Json) (k : String) :
    k ∈ keys (setOptField body key o f) ↔ k ∈ keys body ∨ (o.isSome ∧ k = key) := by
  cases o <;> simp [setOptField, mem_keys_setField]

/-- C6: the key set of the request body built by `list_posts` is exactly
the mandatory keys (`apiKey`, `boardID`) plus the optional fields that were
supplied; an unsupplied optional field never appears, not even as a null
key. -/
theorem c6_request_builder_keys (apiKey boardId : String) (limit skip : Option Nat)
    (sort status authorId search companyId : Option String)
    (tagIds : Option (List String)) (k : String) :
    k ∈ keys (list_posts_body apiKey boardId limit skip sort status authorId search
        companyId tagIds) ↔
      (k = "apiKey" ∨ k = "boardID" ∨
       (limit.isSome ∧ k = "limit") ∨ (skip.isSome ∧ k = "skip") ∨
       (sort.isSome ∧ k = "sort") ∨ (status.isSome ∧ k = "status") ∨
       (authorId.isSome ∧ k = "authorID") ∨ (search.isSome ∧ k = "search") ∨
       (companyId.isSome ∧ k = "companyID") ∨ (tagIds.isSome ∧ k = "tagIDs")) := by
  simp only [list_posts_body, mem_keys_setOptField]
  simp only [keys, List.map_cons, List.map_nil, List.mem_cons,
    List.not_mem_nil, or_false, or_assoc]

/-- C10, as stated, is falsified for a present `items` key of the wrong
JSON type: a 2xx users-list page whose `items` value is a number fails with
a decode error instead of succeeding. -/
theorem c10_counterexample :
    isSuccess 200 = true ∧
    fetch_users_page_decode 200 "resp"
        (some (Json.obj [("items", Json.num 5), ("hasNextPage", Json.bool true),
          ("cursor", Json.str "c")])) =
      .error (.decodeError "Failed to parse users from response") := by
  exact ⟨rfl, rfl⟩

/-- C10 (amended): a 2xx users-list page response that is a JSON object
decodes leniently as long as the payload keys are absent: missing
`items`/`users` defaults to no records, a missing or non-boolean
`hasNextPage` is read as `false` and a missing or non-string `cursor` as
absent, and a first page answered with `hasNextPage = false` (or with no
cursor) makes `list_users` finish after that page; but a present
`items`/`users` value that is not an array of users still fails with a
decode error (see the counterexample). -/
theorem c10_lenient_page_decode :
    (∀ status text fields, isSuccess status = true →
      lookupField fields "items" = none → lookupField fields "users" = none →
      fetch_users_page_decode status text (some (Json.obj fields)) =
        .ok ([], readCursor fields, readHasNext fields)) ∧
    (∀ fields, (lookupField fields "hasNextPage").bind Json.asBool = none →
      readHasNext fields = false) ∧
    (∀ fields, (lookupField fields "cursor").bind Json.asStr = none →
      readCursor fields = none) ∧
    (∀ (α : Type)
      (fetch : Option String → Nat → Except CannyError (List α × Option String × Bool))
      (users : List α) (nc : Option String),
      fetch none 100 = .ok (users, nc, false) → users ≠ [] →
      list_users fetch = .ok (users, [users.length], [none])) ∧
    (∀ (α : Type)
      (fetch : Option String → Nat → Except CannyError (List α × Option String × Bool))
      (users : List α),
      fetch none 100 = .ok (users, none, true) → users ≠ [] →
      list_users fetch = .ok (users, [users.length], [none])) := by
  refine ⟨?_, ?_, ?_, ?_, ?_⟩
  · intro status text fields h hi hu
    simp [fetch_users_page_decode, h, Json.asObj, extractPayload, hi, hu,
      Option.orElse, decodeUsersArr]
    rfl
  · intro fields h
    simp [readHasNext, h]
  · intro fields h
    simp [readCursor, h]
  · intro α fetch users nc h hus
    rw [list_users, loop_last h hus (Or.inl rfl)]
    simp
  · intro α fetch users h hus
    rw [list_users, loop_last h hus (Or.inr rfl)]
    simp

/-- Witness for C10: an object whose `hasNextPage` is the string `true` and
whose `cursor` is a number decodes to no records, no cursor and
`has_next = false`; a first page with `hasNextPage = false` ends the run
after one fetch. -/
theorem c10_lenient_page_decode_witness :
    (isSuccess 200 = true ∧
      fetch_users_page_decode 200 "resp"
          (some (Json.obj [("hasNextPage", Json.str "true"), ("cursor", Json.num 7)])) =
        .ok ([], readCursor [("hasNextPage", Json.str "true"), ("cursor", Json.num 7)],
          readHasNext [("hasNextPage", Json.str "true"), ("cursor", Json.num 7)])) ∧
    readHasNext [("hasNextPage", Json.str "true"), ("cursor", Json.num 7)] = false ∧
    readCursor [("hasNextPage", Json.str "true"), ("cursor", Json.num 7)] = none ∧
    list_users (fun _ _ =>
        (.ok ([0], none, false) : Except CannyError (List Nat × Option String × Bool))) =
      .ok ([0], [1], [none]) := by
  refine ⟨⟨rfl, ?_⟩, ?_, ?_, ?_⟩
  · exact c10_lenient_page_decode.1 200 "resp"
      [("hasNextPage", Json.str "true"), ("cursor", Json.num 7)] rfl rfl rfl
  · exact c10_lenient_page_decode.2.1
      [("hasNextPage", Json.str "true"), ("cursor", Json.num 7)] rfl
  · exact c10_lenient_page_decode.2.2.1
      [("hasNextPage", Json.str "true"), ("cursor", Json.num 7)] rfl
  · have h := c10_lenient_page_decode.2.2.2.1 Nat
      (fun _ _ => .ok ([0], none, false)) [0] none rfl (by decide)
    simpa using h
